import Mathlib

/-!
Verification development for the andy-coin balance ledger and vote state
machine (src/src/data.rs, src/src/commands/give.rs).

Modelling choices, documented once here:

* The concurrent maps (dashmap.DashMap) are modelled as association lists
  with position-preserving insert/modify, mirroring the entry API
  (entry().or_insert_with, entry().and_modify().or_insert, get_mut, insert).
  Iteration order of a hash map is arbitrary; the list order of the model is
  one admissible order, and claims about export contents are stated up to
  permutation / multiset equality.
* u32 values are naturals; arithmetic that the source performs on u32
  applies an explicit mod 2^32 where the source can overflow.  Rust release
  builds wrap two-complement on overflow (debug builds panic); the wrapping
  semantics is modelled.
* chrono.DateTime is modelled as an integer timestamp in seconds;
  chrono.Duration.hours h = 3600 * h seconds and
  chrono.Duration.minutes m = 60 * m seconds, exactly as chrono computes.
  Functions that call Utc::now() internally take the current time as an
  explicit parameter.
* The f64 arithmetic of end_vote is modelled exactly, with a nonnegative
  binary64 value represented as a significand-exponent pair M * 2 ^ k
  (structure F64).  roundF rounds an exact nonnegative rational p / d to
  the nearest 53-bit significand (round to nearest, ties to even,
  unbounded exponent range, which agrees with IEEE binary64 on the
  magnitudes that occur here, far from overflow and subnormals).  IEEE
  requires conversion, division and multiplication to be correctly
  rounded, so (yes as f64) / (total as f64) * 100.0 is
  mulF (divF (ofNatF yes) (ofNatF total)) (ofNatF 100), and the u32 -> f64
  conversion of the majority percentage is exact, so the f64 comparison
  >= is the exact comparison geNatF on represented values.  The NaN
  produced by 0.0 / 0.0 (total = 0 forces yes = 0) is modelled by an
  explicit branch; NaN >= x is false in IEEE, hence the vote fails there.
* The static error strings of the source are modelled by the error type
  VoteError; each constructor is named after the spec error taxonomy and
  stands for exactly one source string.
* Logging calls (crate::logging) are fire-and-forget notifications to an
  external sink with no effect on the data structures; they are omitted.
* The cache field of DataInner is an external platform cache unused by the
  operations modelled here; it is omitted.
-/

namespace AndyCoin

/-- Association list lookup, the model of DashMap.get: first entry with the
given key, if any. -/
def alookup {β : Type} : List (ℕ × β) → ℕ → Option β
  | [], _ => none
  | (k, v) :: rest, key => if k = key then some v else alookup rest key

/-- Association list insert-or-replace, the model of DashMap.insert: the
value of an existing key is replaced in place, a new key is appended. -/
def aupdate {β : Type} : List (ℕ × β) → ℕ → β → List (ℕ × β)
  | [], key, v => [(key, v)]
  | (k, w) :: rest, key, v =>
      if k = key then (k, v) :: rest else (k, w) :: aupdate rest key v

/-- Association list modify-or-insert, the model of the DashMap entry API
entry(key).and_modify(f).or_insert(d): an existing value is transformed by
f in place, an absent key is appended with the default d. -/
def amodify {β : Type} : List (ℕ × β) → ℕ → (β → β) → β → List (ℕ × β)
  | [], key, _, d => [(key, d)]
  | (k, w) :: rest, key, f, d =>
      if k = key then (k, f w) :: rest else (k, w) :: amodify rest key f d

/-- The u32 modulus: arithmetic on u32 balances wraps at this value in a
release build (src stores balances as u32). -/
def U32MOD : ℕ := 4294967296

/-- src/src/data.rs UserBalance: one exported balance record. -/
structure UserBalance where
  guild_id : ℕ
  user_id : ℕ
  balance : ℕ
deriving DecidableEq

/-- src/src/data.rs VoteConfig. -/
structure VoteConfig where
  cooldown_hours : ℕ
  duration_minutes : ℕ
  min_votes : ℕ
  majority_percentage : ℕ
deriving DecidableEq

/-- src/src/data.rs impl Default for VoteConfig. -/
def VoteConfig.default : VoteConfig :=
  { cooldown_hours := 24, duration_minutes := 30,
    min_votes := 10, majority_percentage := 70 }

/-- src/src/data.rs VoteStatus; timestamps are integer seconds, user ids
are naturals, the vote lists are in push order as in the source Vec. -/
structure VoteStatus where
  active : Bool
  start_time : Option ℤ
  end_time : Option ℤ
  initiator_id : Option ℕ
  yes_votes : List ℕ
  no_votes : List ℕ
  last_vote_time : Option ℤ
deriving DecidableEq

/-- src/src/data.rs impl Default for VoteStatus (derived Default: false,
None, None, None, empty, empty, None). -/
def VoteStatus.default : VoteStatus :=
  { active := false, start_time := none, end_time := none,
    initiator_id := none, yes_votes := [], no_votes := [],
    last_vote_time := none }

/-- src/src/data.rs GuildConfig. -/
structure GuildConfig where
  guild_id : ℕ
  giver_role_id : Option ℕ
  vote_config : VoteConfig
  vote_status : VoteStatus
deriving DecidableEq

/-- The fresh GuildConfig built inline by start_vote / set_giver_role /
set_vote_config when the guild has no configuration entry. -/
def GuildConfig.defaultFor (g : ℕ) : GuildConfig :=
  { guild_id := g, giver_role_id := none,
    vote_config := VoteConfig.default, vote_status := VoteStatus.default }

/-- src/src/data.rs DataInner: guild_balances is the two-level map
guild -> user -> balance, guild_configs maps guild -> GuildConfig. -/
structure DataInner where
  guild_balances : List (ℕ × List (ℕ × ℕ))
  guild_configs : List (ℕ × GuildConfig)
deriving DecidableEq

/-- src/src/data.rs DataInner::new: both maps empty. -/
def DataInner.new : DataInner := { guild_balances := [], guild_configs := [] }

/-- The vote machine error values; each constructor stands for one static
error string of the source. -/
inductive VoteError where
  /-- source string: A vote is already active in this server -/
  | voteAlreadyActive : VoteError
  /-- source string: A vote was recently completed. Please wait for the
  cooldown period to end -/
  | cooldownInEffect : VoteError
  /-- source string: No vote is active in this server -/
  | noActiveVote : VoteError
  /-- source string: The vote has ended -/
  | voteEnded : VoteError
deriving DecidableEq

/-! ## The binary64 rounding model used by end_vote -/

/-- Fuel-bounded binary length of a natural (number of binary digits);
fuel 128 covers every value occurring here.  Structural in the fuel so the
kernel can evaluate it. -/
def natBits : ℕ → ℕ → ℕ
  | 0, _ => 0
  | f + 1, n => if n = 0 then 0 else natBits f (n / 2) + 1

/-- A nonnegative binary64 value, represented exactly as M * 2 ^ k.
Values produced by roundF have a 53-bit significand as IEEE requires. -/
structure F64 where
  M : ℕ
  k : ℤ
deriving DecidableEq

/-- Round the fraction a / b (b > 0) to the nearest integer, ties to the
even candidate — the IEEE round-to-nearest-even rule applied to a scaled
significand. -/
def rneNat (a b : ℕ) : ℕ :=
  let q := a / b
  let r := a % b
  if 2 * r < b then q
  else if b < 2 * r then q + 1
  else if q % 2 = 0 then q else q + 1

/-- Binary exponent of the positive fraction p / d: the e with
2 ^ e <= p / d < 2 ^ (e + 1), located from the bit lengths of p and d and
one integer comparison. -/
def ratExp (p d : ℕ) : ℤ :=
  let c : ℤ := (natBits 128 p : ℤ) - (natBits 128 d : ℤ)
  if 0 ≤ c then (if d * 2 ^ c.toNat ≤ p then c else c - 1)
  else (if d ≤ p * 2 ^ (-c).toNat then c else c - 1)

/-- Round the exact nonnegative rational p / d to the nearest binary64
value: 53-bit significand, round to nearest, ties to even.  This is IEEE
binary64 rounding on the magnitudes occurring here (far from the overflow
and subnormal ranges). -/
def roundF (p d : ℕ) : F64 :=
  if p = 0 ∨ d = 0 then ⟨0, 0⟩
  else
    let e := ratExp p d
    let M := if 0 ≤ 52 - e then rneNat (p * 2 ^ (52 - e).toNat) d
             else rneNat p (d * 2 ^ (e - 52).toNat)
    ⟨M, e - 52⟩

/-- Conversion of a natural to f64 (usize as f64 / f64::from(u32)): IEEE
correctly-rounded conversion, exact below 2 ^ 53. -/
def ofNatF (n : ℕ) : F64 := roundF n 1

/-- IEEE f64 division of nonnegative values: the exact quotient
(M1 / M2) * 2 ^ (k1 - k2), correctly rounded. -/
def divF (x y : F64) : F64 :=
  let r := roundF x.M y.M
  ⟨r.M, r.k + x.k - y.k⟩

/-- IEEE f64 multiplication of nonnegative values: the exact product
(M1 * M2) * 2 ^ (k1 + k2), correctly rounded. -/
def mulF (x y : F64) : F64 :=
  let r := roundF (x.M * y.M) 1
  ⟨r.M, r.k + x.k + y.k⟩

/-- The f64 comparison x >= m against an exactly converted natural m,
decided exactly on the represented values by integer cross-scaling. -/
def geNatF (x : F64) (m : ℕ) : Bool :=
  if 0 ≤ x.k then decide (m ≤ x.M * 2 ^ x.k.toNat)
  else decide (m * 2 ^ (-x.k).toNat ≤ x.M)

/-! ## Ledger operations (src/src/data.rs) -/

/-- DataInner::get_guild_balance: balance of user u in guild g, 0 when the
guild or the user entry is absent.  A pure read, no entry is created. -/
def get_guild_balance (s : DataInner) (g u : ℕ) : ℕ :=
  (((alookup s.guild_balances g).bind (fun m => alookup m u)).getD 0)

/-- DataInner::add_coins: creates the guild sub-map if absent
(entry.or_insert_with), then entry(user).and_modify(add).or_insert(amount).
The u32 addition wraps mod 2^32 (release-profile overflow semantics; a
debug build would panic instead — either way it does not saturate).
Returns the new balance and the new state. -/
def add_coins (s : DataInner) (g u a : ℕ) : ℕ × DataInner :=
  let inner := ((alookup s.guild_balances g).getD [])
  let inner2 := amodify inner u (fun bal => (bal + a) % U32MOD) a
  ((alookup inner2 u).getD 0,
   { s with guild_balances := aupdate s.guild_balances g inner2 })

/-- src/src/commands/give.rs give_coins: same mutation as add_coins (the
source duplicates the entry-API sequence; the extra read of the previous
balance feeds only the log call). -/
def give_coins (s : DataInner) (g u a : ℕ) : ℕ × DataInner :=
  let inner := ((alookup s.guild_balances g).getD [])
  let inner2 := amodify inner u (fun bal => (bal + a) % U32MOD) a
  ((alookup inner2 u).getD 0,
   { s with guild_balances := aupdate s.guild_balances g inner2 })

/-- DataInner::remove_coins: creates the guild sub-map if absent, then
entry(user).and_modify(subtract clamped at 0).or_insert(0).  Returns the
new balance and the new state; it has no error path. -/
def remove_coins (s : DataInner) (g u a : ℕ) : ℕ × DataInner :=
  let inner := ((alookup s.guild_balances g).getD [])
  let inner2 := amodify inner u (fun bal => if a ≤ bal then bal - a else 0) 0
  ((alookup inner2 u).getD 0,
   { s with guild_balances := aupdate s.guild_balances g inner2 })

/-- DataInner::set_giver_role: entry.and_modify(set role).or_insert(fresh
config with the role). -/
def set_giver_role (s : DataInner) (g : ℕ) (role : Option ℕ) : DataInner :=
  { s with guild_configs :=
      (amodify s.guild_configs g (fun c => { c with giver_role_id := role })
        { GuildConfig.defaultFor g with giver_role_id := role }) }

/-- DataInner::set_vote_config: entry.and_modify(set vote_config)
.or_insert(fresh config with the vote_config). -/
def set_vote_config (s : DataInner) (g : ℕ) (vc : VoteConfig) : DataInner :=
  { s with guild_configs :=
      (amodify s.guild_configs g (fun c => { c with vote_config := vc })
        { GuildConfig.defaultFor g with vote_config := vc }) }

/-! ## Vote state machine (src/src/data.rs) -/

/-- DataInner::start_vote.  If the guild has no configuration entry a
default one is inserted first (and persists even on a later error).  Then:
error if a vote is active (the flag alone is checked, the end time is not
consulted); error if the cooldown is still running; otherwise install a
fresh VoteStatus and return the end time. -/
def start_vote (s : DataInner) (g initiator : ℕ) (now : ℤ) :
    Except VoteError ℤ × DataInner :=
  let c := (alookup s.guild_configs g).getD (GuildConfig.defaultFor g)
  let s1 := match alookup s.guild_configs g with
    | some _ => s
    | none =>
        { s with guild_configs :=
            aupdate s.guild_configs g (GuildConfig.defaultFor g) }
  if c.vote_status.active then (Except.error VoteError.voteAlreadyActive, s1)
  else
    let hitsCooldown := match c.vote_status.last_vote_time with
      | some last =>
          decide (now < last + 3600 * (c.vote_config.cooldown_hours : ℤ))
      | none => false
    if hitsCooldown then (Except.error VoteError.cooldownInEffect, s1)
    else
      let endTime := now + 60 * (c.vote_config.duration_minutes : ℤ)
      let st : VoteStatus :=
        { active := true, start_time := some now, end_time := some endTime,
          initiator_id := some initiator, yes_votes := [initiator],
          no_votes := [], last_vote_time := none }
      (Except.ok endTime,
       { s1 with guild_configs :=
           aupdate s1.guild_configs g { c with vote_status := st } })

/-- DataInner::end_vote.  Error when the guild has no configuration entry
or no vote is active.  Otherwise records last_vote_time = now and
active = false, fails when total < min_votes, and else compares the f64
percentage (yes / total) * 100 against the majority percentage with >=;
total = 0 makes the division 0.0 / 0.0 = NaN, and NaN >= m is false.
On a pass the guild balance sub-map, if present, is cleared (the guild key
itself stays). -/
def end_vote (s : DataInner) (g : ℕ) (now : ℤ) :
    Except VoteError Bool × DataInner :=
  match alookup s.guild_configs g with
  | none => (Except.error VoteError.noActiveVote, s)
  | some c =>
    if !c.vote_status.active then (Except.error VoteError.noActiveVote, s)
    else
      let yes := c.vote_status.yes_votes.length
      let no := c.vote_status.no_votes.length
      let total := yes + no
      let c2 := { c with vote_status :=
        { c.vote_status with active := false, last_vote_time := some now } }
      let s2 := { s with guild_configs := aupdate s.guild_configs g c2 }
      if total < c.vote_config.min_votes then (Except.ok false, s2)
      else
        let passed :=
          if total = 0 then false
          else geNatF (mulF (divF (ofNatF yes) (ofNatF total)) (ofNatF 100))
            c.vote_config.majority_percentage
        if passed then
          match alookup s2.guild_balances g with
          | some _ =>
              (Except.ok true,
               { s2 with guild_balances := aupdate s2.guild_balances g [] })
          | none => (Except.ok true, s2)
        else (Except.ok false, s2)

/-- The yes arm of the cast_vote tally update: the user is removed from
both lists (Vec::retain with id != user) and pushed onto yes_votes. -/
def cast_yes_status (st : VoteStatus) (u : ℕ) : VoteStatus :=
  let newYes := st.yes_votes.filter (fun i => i != u)
  let newNo := st.no_votes.filter (fun i => i != u)
  { st with yes_votes := newYes ++ [u], no_votes := newNo }

/-- The no arm of the cast_vote tally update: the user is removed from
both lists and pushed onto no_votes. -/
def cast_no_status (st : VoteStatus) (u : ℕ) : VoteStatus :=
  let newYes := st.yes_votes.filter (fun i => i != u)
  let newNo := st.no_votes.filter (fun i => i != u)
  { st with yes_votes := newYes, no_votes := newNo ++ [u] }

/-- DataInner::cast_vote.  Error when the guild has no configuration entry
or no vote is active; when the vote is past its end time it is auto-ended
(end_vote) and the voteEnded error is returned on the updated state;
otherwise the user is removed from both vote lists and appended to the
chosen one. -/
def cast_vote (s : DataInner) (g u : ℕ) (vote_yes : Bool) (now : ℤ) :
    Except VoteError Unit × DataInner :=
  match alookup s.guild_configs g with
  | none => (Except.error VoteError.noActiveVote, s)
  | some c =>
    if !c.vote_status.active then (Except.error VoteError.noActiveVote, s)
    else
      let expired := match c.vote_status.end_time with
        | some e => decide (e < now)
        | none => false
      if expired then
        match end_vote s g now with
        | (Except.error er, s2) => (Except.error er, s2)
        | (Except.ok _, s2) => (Except.error VoteError.voteEnded, s2)
      else
        let st2 := if vote_yes then cast_yes_status c.vote_status u
                   else cast_no_status c.vote_status u
        (Except.ok (),
         { s with guild_configs :=
             (aupdate s.guild_configs g { c with vote_status := st2 }) })

/-! ## Snapshot export and import (src/src/data.rs) -/

/-- The balance half of DataInner::export_data: every (guild, user,
balance) triple, guild sub-map by guild sub-map. -/
def export_balances : List (ℕ × List (ℕ × ℕ)) → List UserBalance
  | [] => []
  | (g, m) :: rest =>
      m.map (fun ub => { guild_id := g, user_id := ub.1, balance := ub.2 })
        ++ export_balances rest

/-- The config half of DataInner::export_data: one record per guild; the
guild_id field of the record is taken from the map key, the other fields
from the stored config. -/
def export_configs : List (ℕ × GuildConfig) → List GuildConfig
  | [] => []
  | (g, c) :: rest =>
      { guild_id := g, giver_role_id := c.giver_role_id,
        vote_config := c.vote_config, vote_status := c.vote_status }
        :: export_configs rest

/-- DataInner::export_data. -/
def export_data (s : DataInner) : List UserBalance × List GuildConfig :=
  (export_balances s.guild_balances, export_configs s.guild_configs)

/-- One step of the balance half of DataInner::import_data:
entry(guild).or_insert_with(new) then guild_map.insert(user, balance). -/
def import_balance (bs : List (ℕ × List (ℕ × ℕ))) (r : UserBalance) :
    List (ℕ × List (ℕ × ℕ)) :=
  let inner := ((alookup bs r.guild_id).getD [])
  aupdate bs r.guild_id (aupdate inner r.user_id r.balance)

/-- DataInner::import_data: upserts every balance record, then inserts
every config record keyed by its guild_id field; pre-existing state is not
cleared first. -/
def import_data (s : DataInner) (bals : List UserBalance)
    (cfgs : List GuildConfig) : DataInner :=
  { guild_balances := bals.foldl import_balance s.guild_balances,
    guild_configs :=
      cfgs.foldl (fun m c => aupdate m c.guild_id c) s.guild_configs }

/-! ## Well-formedness of the concurrent maps (claim C7) -/

/-- The guild-balance map invariant every DashMap state satisfies by
construction: outer guild keys are pairwise distinct and so are the user
keys inside each sub-map. -/
def WFbal (bs : List (ℕ × List (ℕ × ℕ))) : Prop :=
  (bs.map Prod.fst).Nodup ∧ ∀ p ∈ bs, (p.2.map Prod.fst).Nodup

/-- The config map invariant: guild keys pairwise distinct. -/
def WFcfg (cs : List (ℕ × GuildConfig)) : Prop :=
  (cs.map Prod.fst).Nodup

/-- A (guild, user) key is present in a guild-balance map. -/
def balHas (bs : List (ℕ × List (ℕ × ℕ))) (g u : ℕ) : Prop :=
  ∃ m, alookup bs g = some m ∧ (alookup m u).isSome

/-! ## Vote-set invariant and reachability (claim C6) -/

/-- The ballot invariant: no duplicate entries inside either vote list and
no user present in both. -/
def BallotInv (st : VoteStatus) : Prop :=
  st.yes_votes.Nodup ∧ st.no_votes.Nodup ∧
  ∀ u2, u2 ∈ st.yes_votes → u2 ∉ st.no_votes

/-- All configuration entries of a store satisfy the ballot invariant. -/
def ConfigsInv (s : DataInner) : Prop :=
  ∀ p ∈ s.guild_configs, BallotInv p.2.vote_status

/-- Store states reachable from the empty store through the public
mutating operations modelled here (ledger credits and debits, the config
setters and the three vote transitions, at arbitrary times).  import_data
is deliberately not a step: it writes snapshot records verbatim. -/
inductive Reach : DataInner → Prop
  | init : Reach DataInner.new
  | add (s : DataInner) (g u a : ℕ) : Reach s → Reach (add_coins s g u a).2
  | remove (s : DataInner) (g u a : ℕ) : Reach s →
      Reach (remove_coins s g u a).2
  | role (s : DataInner) (g : ℕ) (r : Option ℕ) : Reach s →
      Reach (set_giver_role s g r)
  | config (s : DataInner) (g : ℕ) (vc : VoteConfig) : Reach s →
      Reach (set_vote_config s g vc)
  | start (s : DataInner) (g i : ℕ) (now : ℤ) : Reach s →
      Reach (start_vote s g i now).2
  | cast (s : DataInner) (g u : ℕ) (b : Bool) (now : ℤ) : Reach s →
      Reach (cast_vote s g u b now).2
  | finish (s : DataInner) (g : ℕ) (now : ℤ) : Reach s →
      Reach (end_vote s g now).2

/-! ## Concrete states used by witnesses and counterexamples -/

/-- A state holding the maximal u32 balance for guild 1, user 2. -/
def s1max : DataInner :=
  { guild_balances := [(1, [(2, 4294967295)])], guild_configs := [] }

/-- The configuration record as end_vote rewrites it: active cleared,
last_vote_time stamped. -/
def ended_config (c : GuildConfig) (now : ℤ) : GuildConfig :=
  { c with vote_status :=
      { c.vote_status with active := false, last_vote_time := some now } }

/-- A config with a running vote, for the C5 witness state. -/
def c5act : GuildConfig :=
  { guild_id := 1, giver_role_id := none, vote_config := VoteConfig.default,
    vote_status :=
      { active := true, start_time := some 0, end_time := some 1800,
        initiator_id := some 7, yes_votes := [7], no_votes := [],
        last_vote_time := none } }

/-- A store whose guild 1 has a running vote and a nonzero balance. -/
def s5act : DataInner :=
  { guild_balances := [(1, [(2, 40)])], guild_configs := [(1, c5act)] }

/-- A config with a running, unexpired vote for the C6 witness. -/
def c6act : GuildConfig :=
  { guild_id := 1, giver_role_id := none, vote_config := VoteConfig.default,
    vote_status :=
      { active := true, start_time := some 0, end_time := some 1800,
        initiator_id := some 7, yes_votes := [7], no_votes := [],
        last_vote_time := none } }

/-- A store whose guild 1 has a running vote, for the C6 witness. -/
def s6act : DataInner :=
  { guild_balances := [], guild_configs := [(1, c6act)] }

/-- The vote configuration and tally of the C2 counterexample: majority 29
percent, 29 yes ballots and 71 no ballots from distinct users. -/
def c2cfg : GuildConfig :=
  { guild_id := 1, giver_role_id := none,
    vote_config :=
      { cooldown_hours := 24, duration_minutes := 30,
        min_votes := 10, majority_percentage := 29 },
    vote_status :=
      { active := true, start_time := some 0, end_time := some 1800,
        initiator_id := some 100, yes_votes := List.range 29,
        no_votes := (List.range 71).map (fun i => i + 100),
        last_vote_time := none } }

/-- The store of the C2 counterexample. -/
def s2vote : DataInner :=
  { guild_balances := [], guild_configs := [(1, c2cfg)] }

/-- The configuration of an expired-but-still-flagged-active vote: the end
time 0 lies before the current time 1 used in the counterexample. -/
def c3exp : GuildConfig :=
  { guild_id := 1, giver_role_id := none, vote_config := VoteConfig.default,
    vote_status :=
      { active := true, start_time := some 0, end_time := some 0,
        initiator_id := some 7, yes_votes := [7], no_votes := [],
        last_vote_time := none } }

/-- A store whose guild 1 sits in the Expired-Active state. -/
def s3exp : DataInner :=
  { guild_balances := [], guild_configs := [(1, c3exp)] }

/-- A small well-formed store for the C7 witness: two guilds, one with
two users and one with an emptied sub-map, plus one config entry. -/
def s7 : DataInner :=
  { guild_balances := [(1, [(2, 5), (3, 7)]), (4, [])],
    guild_configs := [(1, GuildConfig.defaultFor 1)] }

/-! ## Association list lemmas (shared helpers) -/

theorem alookup_cons_self {β : Type} (k : ℕ) (w : β) (tl : List (ℕ × β)) :
    alookup ((k, w) :: tl) k = some w := by
  simp [alookup]

theorem alookup_cons_other {β : Type} {k1 k : ℕ} (hne : k1 ≠ k) (w : β)
    (tl : List (ℕ × β)) : alookup ((k1, w) :: tl) k = alookup tl k := by
  simp [alookup, hne]

theorem aupdate_cons_self {β : Type} (k : ℕ) (w v : β) (tl : List (ℕ × β)) :
    aupdate ((k, w) :: tl) k v = (k, v) :: tl := by
  simp [aupdate]

theorem aupdate_cons_other {β : Type} {k1 k : ℕ} (hne : k1 ≠ k) (w v : β)
    (tl : List (ℕ × β)) :
    aupdate ((k1, w) :: tl) k v = (k1, w) :: aupdate tl k v := by
  simp [aupdate, hne]

theorem amodify_cons_self {β : Type} (k : ℕ) (w : β) (f : β → β) (d : β)
    (tl : List (ℕ × β)) :
    amodify ((k, w) :: tl) k f d = (k, f w) :: tl := by
  simp [amodify]

theorem amodify_cons_other {β : Type} {k1 k : ℕ} (hne : k1 ≠ k) (w : β)
    (f : β → β) (d : β) (tl : List (ℕ × β)) :
    amodify ((k1, w) :: tl) k f d = (k1, w) :: amodify tl k f d := by
  simp [amodify, hne]

theorem alookup_aupdate_self {β : Type} (l : List (ℕ × β)) (k : ℕ) (v : β) :
    alookup (aupdate l k v) k = some v := by
  induction l with
  | nil => simp [aupdate, alookup]
  | cons hd tl ih =>
    obtain ⟨k1, v1⟩ := hd
    by_cases h : k1 = k
    · subst h
      rw [aupdate_cons_self, alookup_cons_self]
    · rw [aupdate_cons_other h, alookup_cons_other h, ih]

theorem alookup_aupdate_other {β : Type} (l : List (ℕ × β)) {k k2 : ℕ}
    (v : β) (hk : k ≠ k2) : alookup (aupdate l k v) k2 = alookup l k2 := by
  induction l with
  | nil => simp [aupdate, alookup, hk]
  | cons hd tl ih =>
    obtain ⟨k1, v1⟩ := hd
    by_cases h : k1 = k
    · subst h
      rw [aupdate_cons_self, alookup_cons_other hk, alookup_cons_other hk]
    · by_cases h2 : k1 = k2
      · subst h2
        rw [aupdate_cons_other h, alookup_cons_self, alookup_cons_self]
      · rw [aupdate_cons_other h, alookup_cons_other h2,
          alookup_cons_other h2, ih]

theorem alookup_amodify_self {β : Type} (l : List (ℕ × β)) (k : ℕ)
    (f : β → β) (d : β) :
    alookup (amodify l k f d) k =
      some (match alookup l k with | some v => f v | none => d) := by
  induction l with
  | nil => simp [amodify, alookup]
  | cons hd tl ih =>
    obtain ⟨k1, v1⟩ := hd
    by_cases h : k1 = k
    · subst h
      rw [amodify_cons_self, alookup_cons_self, alookup_cons_self]
    · rw [amodify_cons_other h, alookup_cons_other h, alookup_cons_other h,
        ih]

theorem alookup_amodify_other {β : Type} (l : List (ℕ × β)) {k k2 : ℕ}
    (f : β → β) (d : β) (hk : k ≠ k2) :
    alookup (amodify l k f d) k2 = alookup l k2 := by
  induction l with
  | nil => simp [amodify, alookup, hk]
  | cons hd tl ih =>
    obtain ⟨k1, v1⟩ := hd
    by_cases h : k1 = k
    · subst h
      rw [amodify_cons_self, alookup_cons_other hk, alookup_cons_other hk]
    · by_cases h2 : k1 = k2
      · subst h2
        rw [amodify_cons_other h, alookup_cons_self, alookup_cons_self]
      · rw [amodify_cons_other h, alookup_cons_other h2,
          alookup_cons_other h2, ih]

theorem mem_aupdate {β : Type} {l : List (ℕ × β)} {k : ℕ} {v : β}
    {p : ℕ × β} (hp : p ∈ aupdate l k v) : p ∈ l ∨ p = (k, v) := by
  induction l with
  | nil => simpa [aupdate] using hp
  | cons hd tl ih =>
    obtain ⟨k1, v1⟩ := hd
    by_cases h : k1 = k
    · subst h
      rw [aupdate_cons_self] at hp
      rcases List.mem_cons.mp hp with h1 | h1
      · exact Or.inr h1
      · exact Or.inl (List.mem_cons_of_mem _ h1)
    · rw [aupdate_cons_other h] at hp
      rcases List.mem_cons.mp hp with h1 | h1
      · exact Or.inl (by simp [h1])
      · rcases ih h1 with h2 | h2
        · exact Or.inl (List.mem_cons_of_mem _ h2)
        · exact Or.inr h2

theorem mem_amodify {β : Type} {l : List (ℕ × β)} {k : ℕ} {f : β → β}
    {d : β} {p : ℕ × β} (hp : p ∈ amodify l k f d) :
    p ∈ l ∨ (∃ w, (k, w) ∈ l ∧ p = (k, f w)) ∨ p = (k, d) := by
  induction l with
  | nil =>
    simp only [amodify] at hp
    exact Or.inr (Or.inr (by simpa using hp))
  | cons hd tl ih =>
    obtain ⟨k1, v1⟩ := hd
    by_cases h : k1 = k
    · subst h
      rw [amodify_cons_self] at hp
      rcases List.mem_cons.mp hp with h1 | h1
      · exact Or.inr (Or.inl ⟨v1, List.mem_cons_self _ _, h1⟩)
      · exact Or.inl (List.mem_cons_of_mem _ h1)
    · rw [amodify_cons_other h] at hp
      rcases List.mem_cons.mp hp with h1 | h1
      · exact Or.inl (by simp [h1])
      · rcases ih h1 with h2 | h2 | h2
        · exact Or.inl (List.mem_cons_of_mem _ h2)
        · obtain ⟨w, hw, hpw⟩ := h2
          exact Or.inr (Or.inl ⟨w, List.mem_cons_of_mem _ hw, hpw⟩)
        · exact Or.inr (Or.inr h2)

theorem natCast_sub_eq_max (b a : ℕ) :
    ((b - a : ℕ) : ℤ) = max ((b : ℤ) - (a : ℤ)) 0 := by
  omega

theorem aupdate_absent {β : Type} {l : List (ℕ × β)} {k : ℕ} (v : β)
    (hab : alookup l k = none) : aupdate l k v = l ++ [(k, v)] := by
  induction l with
  | nil => simp [aupdate]
  | cons hd tl ih =>
    obtain ⟨k1, v1⟩ := hd
    by_cases h : k1 = k
    · subst h
      rw [alookup_cons_self] at hab
      exact absurd hab (by simp)
    · rw [alookup_cons_other h] at hab
      rw [aupdate_cons_other h, ih hab, List.cons_append]

theorem alookup_mem {β : Type} {l : List (ℕ × β)} {k : ℕ} {v : β}
    (h : alookup l k = some v) : (k, v) ∈ l := by
  induction l with
  | nil => simp [alookup] at h
  | cons hd tl ih =>
    obtain ⟨k1, v1⟩ := hd
    by_cases hk : k1 = k
    · subst hk
      rw [alookup_cons_self] at h
      obtain rfl : v1 = v := by simpa using h
      exact List.mem_cons_self _ _
    · rw [alookup_cons_other hk] at h
      exact List.mem_cons_of_mem _ (ih h)

theorem amodify_isSome {β : Type} (l : List (ℕ × β)) (k : ℕ) (f : β → β)
    (d : β) : (alookup (amodify l k f d) k).isSome := by
  rw [alookup_amodify_self]
  rfl

theorem end_vote_balances (s : DataInner) (g : ℕ) (now : ℤ) :
    (end_vote s g now).2.guild_balances = s.guild_balances ∨
    (end_vote s g now).2.guild_balances = aupdate s.guild_balances g [] := by
  simp only [end_vote]
  repeat' split
  all_goals first
  | exact Or.inl rfl
  | exact Or.inr rfl

/-! ## Claim C4 -/

/-- C4: remove_coins (debit) returns max(previous_balance - amount, 0),
never errors (its result type has no error case, matching the u32 return
of the source), and the stored balance is the same clamped value — in
particular never negative — for every state, hence after every prior
sequence of credits and debits on the key. -/
theorem C4_remove_coins_clamps (s : DataInner) (g u a : ℕ) :
    (((remove_coins s g u a).1 : ℤ) =
      max ((get_guild_balance s g u : ℤ) - (a : ℤ)) 0) ∧
    (∃ m, alookup (remove_coins s g u a).2.guild_balances g = some m ∧
      alookup m u = some (get_guild_balance s g u - a)) := by
  cases houter : alookup s.guild_balances g with
  | none =>
    refine ⟨?_, [(u, 0)], ?_, ?_⟩
    · simp [remove_coins, get_guild_balance, houter, amodify, alookup]
    · simp [remove_coins, houter, amodify, alookup_aupdate_self]
    · simp [get_guild_balance, houter, alookup]
  | some m =>
    cases hinner : alookup m u with
    | none =>
      have hmod : alookup (amodify m u
          (fun bal => if a ≤ bal then bal - a else 0) 0) u = some 0 := by
        rw [alookup_amodify_self, hinner]
      refine ⟨?_, amodify m u (fun bal => if a ≤ bal then bal - a else 0) 0,
        ?_, ?_⟩
      · simp [remove_coins, get_guild_balance, houter, hinner, hmod]
      · simp [remove_coins, houter, alookup_aupdate_self]
      · simp [get_guild_balance, houter, hinner, hmod]
    | some b =>
      have hclamp : (if a ≤ b then b - a else 0) = b - a := by
        split <;> omega
      have hmod : alookup (amodify m u
          (fun bal => if a ≤ bal then bal - a else 0) 0) u = some (b - a) := by
        rw [alookup_amodify_self, hinner]
        exact congrArg some hclamp
      refine ⟨?_, amodify m u (fun bal => if a ≤ bal then bal - a else 0) 0,
        ?_, ?_⟩
      · simp [remove_coins, get_guild_balance, houter, hinner, hmod,
          natCast_sub_eq_max]
      · simp [remove_coins, houter, alookup_aupdate_self]
      · simp [get_guild_balance, houter, hinner, hmod]

/-! ## Claim C1 -/

/-- C1 (amended): add_coins creates the guild and user entries if absent,
and the u32 addition wraps: the returned and stored new balance is
(previous_balance + amount) mod 2^32, not the saturated sum; give_coins
performs the identical mutation. -/
theorem C1_add_coins_wraps (s : DataInner) (g u a : ℕ) (ha : a < U32MOD) :
    ((add_coins s g u a).1 = (get_guild_balance s g u + a) % U32MOD) ∧
    (∃ m, alookup (add_coins s g u a).2.guild_balances g = some m ∧
      alookup m u = some ((get_guild_balance s g u + a) % U32MOD)) ∧
    give_coins s g u a = add_coins s g u a := by
  refine ⟨?_, ?_, rfl⟩
  · cases houter : alookup s.guild_balances g with
    | none =>
      simp [add_coins, get_guild_balance, houter, amodify, alookup,
        Nat.mod_eq_of_lt ha]
    | some m =>
      cases hinner : alookup m u with
      | none =>
        have hmod : alookup (amodify m u (fun bal => (bal + a) % U32MOD) a)
            u = some a := by
          rw [alookup_amodify_self, hinner]
        simp [add_coins, get_guild_balance, houter, hinner, hmod,
          Nat.mod_eq_of_lt ha]
      | some b =>
        have hmod : alookup (amodify m u (fun bal => (bal + a) % U32MOD) a)
            u = some ((b + a) % U32MOD) := by
          rw [alookup_amodify_self, hinner]
        simp [add_coins, get_guild_balance, houter, hinner, hmod]
  · cases houter : alookup s.guild_balances g with
    | none =>
      exact ⟨[(u, a)],
        by simp [add_coins, houter, amodify, alookup_aupdate_self],
        by simp [get_guild_balance, houter, alookup, Nat.mod_eq_of_lt ha]⟩
    | some m =>
      cases hinner : alookup m u with
      | none =>
        have hmod : alookup (amodify m u (fun bal => (bal + a) % U32MOD) a)
            u = some a := by
          rw [alookup_amodify_self, hinner]
        exact ⟨amodify m u (fun bal => (bal + a) % U32MOD) a,
          by simp [add_coins, houter, alookup_aupdate_self],
          by simp [get_guild_balance, houter, hinner, hmod,
            Nat.mod_eq_of_lt ha]⟩
      | some b =>
        have hmod : alookup (amodify m u (fun bal => (bal + a) % U32MOD) a)
            u = some ((b + a) % U32MOD) := by
          rw [alookup_amodify_self, hinner]
        exact ⟨amodify m u (fun bal => (bal + a) % U32MOD) a,
          by simp [add_coins, houter, alookup_aupdate_self],
          by simp [get_guild_balance, houter, hinner, hmod]⟩

/-- C1 witness: the amended theorem applied at a concrete input. -/
theorem C1_add_coins_wraps_witness :
    (add_coins DataInner.new 1 2 5).1 =
      (get_guild_balance DataInner.new 1 2 + 5) % U32MOD :=
  (C1_add_coins_wraps DataInner.new 1 2 5 (by decide)).1

/-- C1 counterexample: crediting 1 coin onto the maximal u32 balance
returns 0 (the wrapped sum), not the claimed clamped value
min (previous + amount) (2^32 - 1) = 4294967295. -/
theorem C1_counterexample :
    (add_coins s1max 1 2 1).1 = 0 ∧
    (add_coins s1max 1 2 1).1 ≠ min (4294967295 + 1) 4294967295 := by
  decide

/-! ## Claim C8 -/

/-- C8 counterexample: debiting an absent (guild, user) key on the empty
store creates both the guild sub-map and a user entry with balance 0,
although the claim says debit applied to an absent guild or user creates
no entries (creation only on first credit). -/
theorem C8_counterexample :
    DataInner.new.guild_balances = [] ∧
    (remove_coins DataInner.new 1 2 5).2.guild_balances = [(1, [(2, 0)])] := by
  decide

/-- C8 (amended): a guild sub-map and its (guild, user) entries are
created lazily on first credit or debit — remove_coins also creates the
sub-map and inserts balance 0 for an absent user; neither credit nor debit
ever removes an existing entry; end_vote never deletes a guild key (on a
pass it clears the sub-map contents only). -/
theorem C8_entry_lifecycle (s : DataInner) (g u a g2 u2 : ℕ) (now : ℤ) :
    ((∃ m, alookup (add_coins s g u a).2.guild_balances g = some m ∧
        (alookup m u).isSome) ∧
      (∃ m, alookup (remove_coins s g u a).2.guild_balances g = some m ∧
        (alookup m u).isSome)) ∧
    (∀ m2, alookup s.guild_balances g2 = some m2 →
      ((∃ m3, alookup (add_coins s g u a).2.guild_balances g2 = some m3 ∧
          ∀ b2, alookup m2 u2 = some b2 → (alookup m3 u2).isSome) ∧
        (∃ m3, alookup (remove_coins s g u a).2.guild_balances g2 = some m3 ∧
          ∀ b2, alookup m2 u2 = some b2 → (alookup m3 u2).isSome))) ∧
    ((alookup s.guild_balances g2).isSome →
      (alookup (end_vote s g now).2.guild_balances g2).isSome) := by
  refine ⟨⟨?_, ?_⟩, ?_, ?_⟩
  · exact ⟨amodify ((alookup s.guild_balances g).getD []) u
      (fun bal => (bal + a) % U32MOD) a,
      by simp [add_coins, alookup_aupdate_self], amodify_isSome _ _ _ _⟩
  · exact ⟨amodify ((alookup s.guild_balances g).getD []) u
      (fun bal => if a ≤ bal then bal - a else 0) 0,
      by simp [remove_coins, alookup_aupdate_self], amodify_isSome _ _ _ _⟩
  · intro m2 hm2
    by_cases hg : g2 = g
    · subst hg
      constructor
      · refine ⟨amodify m2 u (fun bal => (bal + a) % U32MOD) a,
          by simp [add_coins, hm2, alookup_aupdate_self], ?_⟩
        intro b2 hb2
        by_cases hu : u2 = u
        · subst hu
          exact amodify_isSome _ _ _ _
        · rw [alookup_amodify_other _ _ _ (fun h => hu h.symm), hb2]
          rfl
      · refine ⟨amodify m2 u (fun bal => if a ≤ bal then bal - a else 0) 0,
          by simp [remove_coins, hm2, alookup_aupdate_self], ?_⟩
        intro b2 hb2
        by_cases hu : u2 = u
        · subst hu
          exact amodify_isSome _ _ _ _
        · rw [alookup_amodify_other _ _ _ (fun h => hu h.symm), hb2]
          rfl
    · have hne : g ≠ g2 := fun h => hg h.symm
      constructor
      · exact ⟨m2, by simp [add_coins, alookup_aupdate_other _ _ hne, hm2],
          fun b2 hb2 => by simp [hb2]⟩
      · exact ⟨m2, by simp [remove_coins, alookup_aupdate_other _ _ hne, hm2],
          fun b2 hb2 => by simp [hb2]⟩
  · intro hsome
    rcases end_vote_balances s g now with hbal | hbal
    · rw [hbal]
      exact hsome
    · rw [hbal]
      by_cases hg : g2 = g
      · subst hg
        rw [alookup_aupdate_self]
        rfl
      · rw [alookup_aupdate_other _ _ (fun h => hg h.symm)]
        exact hsome

/-- C8 witness: the amended theorem applied at a concrete input. -/
theorem C8_entry_lifecycle_witness :
    (∃ m, alookup (remove_coins DataInner.new 1 2 5).2.guild_balances 1 =
      some m ∧ (alookup m 2).isSome) :=
  ((C8_entry_lifecycle DataInner.new 1 2 5 1 2 0).1).2

/-! ## Claim C9 -/

/-- C9: every successful start_vote replaces the entire vote_status record
of the guild with a fresh one whose last_vote_time is None (and whose
other fields are exactly the fresh-vote values), so the previous
completion time does not survive the start of a new vote. -/
theorem C9_start_vote_fresh (s : DataInner) (g initiator : ℕ) (now : ℤ)
    (e : ℤ) (s2 : DataInner)
    (hok : start_vote s g initiator now = (Except.ok e, s2)) :
    ∃ c2, alookup s2.guild_configs g = some c2 ∧
      c2.vote_status =
        { active := true, start_time := some now, end_time := some e,
          initiator_id := some initiator, yes_votes := [initiator],
          no_votes := [], last_vote_time := none } := by
  cases hlookup : alookup s.guild_configs g with
  | none =>
    simp only [start_vote, hlookup, Option.getD_none, GuildConfig.defaultFor,
      VoteStatus.default, VoteConfig.default, Bool.false_eq_true, if_false,
      Prod.mk.injEq, Except.ok.injEq] at hok
    obtain ⟨he, hs2⟩ := hok
    subst hs2
    exact ⟨_, alookup_aupdate_self .., by simp [← he]⟩
  | some c =>
    simp only [start_vote, hlookup, Option.getD_some] at hok
    by_cases hactive : c.vote_status.active
    · simp [hactive] at hok
    · simp only [hactive, Bool.false_eq_true, if_false,
        decide_eq_true_eq] at hok
      cases hlast : c.vote_status.last_vote_time with
      | some last =>
        simp only [hlast] at hok
        by_cases hcool :
            now < last + 3600 * (c.vote_config.cooldown_hours : ℤ)
        · simp [hcool] at hok
        · simp only [hcool, decide_eq_true_eq, if_false, Prod.mk.injEq,
            Except.ok.injEq] at hok
          obtain ⟨he, hs2⟩ := hok
          subst hs2
          exact ⟨_, alookup_aupdate_self .., by simp [← he]⟩
      | none =>
        simp only [hlast, Bool.false_eq_true, if_false, Prod.mk.injEq,
          Except.ok.injEq] at hok
        obtain ⟨he, hs2⟩ := hok
        subst hs2
        exact ⟨_, alookup_aupdate_self .., by simp [← he]⟩

/-- C9 witness: the theorem applied to a concrete successful start. -/
theorem C9_start_vote_fresh_witness :
    ∃ c2, alookup (start_vote DataInner.new 1 7 0).2.guild_configs 1 =
      some c2 ∧
      c2.vote_status =
        { active := true, start_time := some 0, end_time := some 1800,
          initiator_id := some 7, yes_votes := [7], no_votes := [],
          last_vote_time := none } :=
  C9_start_vote_fresh DataInner.new 1 7 0 1800
    (start_vote DataInner.new 1 7 0).2 rfl

/-! ## Claim C10 -/

/-- C10: cast_vote and end_vote on a guild with no configuration entry
fail with the NoActiveVote error and return the state unchanged (so
neither the configuration store nor the ledger is touched), while
start_vote first creates a default configuration entry (default vote
config, no giver role) and, its preconditions passing on the default
status, starts the vote in it. -/
theorem C10_missing_config (s : DataInner) (g u initiator : ℕ) (b : Bool)
    (now : ℤ) (hnone : alookup s.guild_configs g = none) :
    cast_vote s g u b now = (Except.error VoteError.noActiveVote, s) ∧
    end_vote s g now = (Except.error VoteError.noActiveVote, s) ∧
    (∃ s2, start_vote s g initiator now =
      (Except.ok (now + 60 * 30), s2) ∧
      alookup s2.guild_configs g =
        some ({ guild_id := g, giver_role_id := none,
                vote_config := VoteConfig.default,
                vote_status := {
                  active := true, start_time := some now,
                  end_time := some (now + 60 * 30),
                  initiator_id := some initiator, yes_votes := [initiator],
                  no_votes := [], last_vote_time := none } })) := by
  refine ⟨?_, ?_, ?_⟩
  · simp [cast_vote, hnone]
  · simp [end_vote, hnone]
  · refine ⟨(start_vote s g initiator now).2, ?_, ?_⟩
    · have h1 : (start_vote s g initiator now).1 =
          Except.ok (now + 60 * 30) := by
        simp [start_vote, hnone, GuildConfig.defaultFor, VoteStatus.default,
          VoteConfig.default]
      exact Prod.ext h1 rfl
    · simp only [start_vote, hnone, Option.getD_none, GuildConfig.defaultFor,
        VoteStatus.default, VoteConfig.default, Bool.false_eq_true, if_false]
      rw [alookup_aupdate_self]
      norm_num

/-! ## Claim C5 -/

/-- C5: a successful end_vote sets active = false and
last_vote_time = now regardless of the outcome; on a pass every balance
in the guild reads 0 afterwards (the single clear of the sub-map — the
sole ledger effect of the vote machine) while other guilds are untouched;
on a fail no balance anywhere changes. -/
theorem C5_end_vote_effects (s : DataInner) (g : ℕ) (now : ℤ)
    (c : GuildConfig) (hlookup : alookup s.guild_configs g = some c)
    (hactive : c.vote_status.active = true) :
    ∃ r s2, end_vote s g now = (Except.ok r, s2) ∧
      (∃ c2, alookup s2.guild_configs g = some c2 ∧
        c2.vote_status.active = false ∧
        c2.vote_status.last_vote_time = some now) ∧
      (∀ g2, g2 ≠ g →
        alookup s2.guild_balances g2 = alookup s.guild_balances g2) ∧
      (∀ g2, g2 ≠ g →
        alookup s2.guild_configs g2 = alookup s.guild_configs g2) ∧
      (r = true → ∀ u2, get_guild_balance s2 g u2 = 0) ∧
      (r = false → alookup s2.guild_balances g = alookup s.guild_balances g)
      := by
  have hcases : end_vote s g now = (Except.ok false,
      { s with guild_configs :=
          (aupdate s.guild_configs g (ended_config c now)) }) ∨
      (end_vote s g now = (Except.ok true,
        { s with guild_configs :=
            (aupdate s.guild_configs g (ended_config c now)) }) ∧
        alookup s.guild_balances g = none) ∨
      (∃ m, alookup s.guild_balances g = some m ∧
        end_vote s g now = (Except.ok true,
          { guild_balances := aupdate s.guild_balances g [],
            guild_configs :=
              aupdate s.guild_configs g (ended_config c now) })) := by
    by_cases hmin : c.vote_status.yes_votes.length +
        c.vote_status.no_votes.length < c.vote_config.min_votes
    · simp only [end_vote, hlookup, hactive, Bool.not_true,
        Bool.false_eq_true, if_false, if_pos hmin]
      exact Or.inl rfl
    · by_cases htot : c.vote_status.yes_votes.length +
          c.vote_status.no_votes.length = 0
      · simp only [end_vote, hlookup, hactive, Bool.not_true,
          Bool.false_eq_true, if_false, if_neg hmin, if_pos htot]
        exact Or.inl rfl
      · by_cases hpass : geNatF (mulF (divF
            (ofNatF c.vote_status.yes_votes.length)
            (ofNatF (c.vote_status.yes_votes.length +
              c.vote_status.no_votes.length))) (ofNatF 100))
            c.vote_config.majority_percentage = true
        · cases hbal : alookup s.guild_balances g with
          | some m =>
            simp only [end_vote, hlookup, hactive, Bool.not_true,
              Bool.false_eq_true, if_false, if_neg hmin, if_neg htot,
              hpass, if_true, hbal]
            exact Or.inr (Or.inr ⟨m, rfl, rfl⟩)
          | none =>
            simp only [end_vote, hlookup, hactive, Bool.not_true,
              Bool.false_eq_true, if_false, if_neg hmin, if_neg htot,
              hpass, if_true, hbal]
            exact Or.inr (Or.inl ⟨rfl, trivial⟩)
        · rw [Bool.not_eq_true] at hpass
          simp only [end_vote, hlookup, hactive, Bool.not_true,
            Bool.false_eq_true, if_false, if_neg hmin, if_neg htot, hpass]
          exact Or.inl rfl
  rcases hcases with h | ⟨h, hnone⟩ | ⟨m, hm, h⟩
  · refine ⟨false, _, h, ⟨_, alookup_aupdate_self .., rfl, rfl⟩,
      fun g2 hg2 => rfl,
      fun g2 hg2 => alookup_aupdate_other _ _ (fun he => hg2 he.symm),
      ?_, fun _ => rfl⟩
    intro hft
    simp at hft
  · refine ⟨true, _, h, ⟨_, alookup_aupdate_self .., rfl, rfl⟩,
      fun g2 hg2 => rfl,
      fun g2 hg2 => alookup_aupdate_other _ _ (fun he => hg2 he.symm),
      ?_, ?_⟩
    · intro _ u2
      simp [get_guild_balance, hnone]
    · intro hft
      simp at hft
  · refine ⟨true, _, h, ⟨_, alookup_aupdate_self .., rfl, rfl⟩,
      fun g2 hg2 => alookup_aupdate_other _ _ (fun he => hg2 he.symm),
      fun g2 hg2 => alookup_aupdate_other _ _ (fun he => hg2 he.symm),
      ?_, ?_⟩
    · intro _ u2
      simp [get_guild_balance, alookup_aupdate_self, alookup]
    · intro hft
      simp at hft

/-- C5 witness: the theorem applied at a concrete state with an active
vote. -/
theorem C5_end_vote_effects_witness :
    ∃ r s2, end_vote s5act 1 5 = (Except.ok r, s2) ∧
      (∃ c2, alookup s2.guild_configs 1 = some c2 ∧
        c2.vote_status.active = false ∧
        c2.vote_status.last_vote_time = some 5) ∧
      (∀ g2, g2 ≠ 1 →
        alookup s2.guild_balances g2 = alookup s5act.guild_balances g2) ∧
      (∀ g2, g2 ≠ 1 →
        alookup s2.guild_configs g2 = alookup s5act.guild_configs g2) ∧
      (r = true → ∀ u2, get_guild_balance s2 1 u2 = 0) ∧
      (r = false →
        alookup s2.guild_balances 1 = alookup s5act.guild_balances 1) :=
  C5_end_vote_effects s5act 1 5 c5act rfl rfl

/-! ## Ballot-invariant preservation lemmas (claim C6 support) -/

theorem BallotInv_default : BallotInv VoteStatus.default :=
  ⟨List.nodup_nil, List.nodup_nil, by simp [VoteStatus.default]⟩

theorem mem_filter_ne {l : List ℕ} {u v : ℕ} :
    v ∈ l.filter (fun i => i != u) ↔ v ∈ l ∧ v ≠ u := by
  simp [List.mem_filter]

theorem nodup_filter_ne (l : List ℕ) (u : ℕ) (h : l.Nodup) :
    (l.filter (fun i => i != u)).Nodup :=
  h.filter _

theorem nodup_filter_ne_append (l : List ℕ) (u : ℕ) (h : l.Nodup) :
    (l.filter (fun i => i != u) ++ [u]).Nodup := by
  rw [List.nodup_append]
  refine ⟨h.filter _, List.nodup_singleton u, ?_⟩
  intro v hv
  rw [mem_filter_ne] at hv
  simp [hv.2]

theorem BallotInv_cast_yes (st : VoteStatus) (u : ℕ) (h : BallotInv st) :
    BallotInv (cast_yes_status st u) := by
  obtain ⟨hy, hn, hd⟩ := h
  simp only [cast_yes_status, BallotInv]
  refine ⟨nodup_filter_ne_append _ _ hy, nodup_filter_ne _ _ hn, ?_⟩
  intro v hv hvn
  rw [mem_filter_ne] at hvn
  rcases List.mem_append.mp hv with hv1 | hv1
  · rw [mem_filter_ne] at hv1
    exact hd v hv1.1 hvn.1
  · exact hvn.2 (by simpa using hv1)

theorem BallotInv_cast_no (st : VoteStatus) (u : ℕ) (h : BallotInv st) :
    BallotInv (cast_no_status st u) := by
  obtain ⟨hy, hn, hd⟩ := h
  simp only [cast_no_status, BallotInv]
  refine ⟨nodup_filter_ne _ _ hy, nodup_filter_ne_append _ _ hn, ?_⟩
  intro v hv hvn
  rw [mem_filter_ne] at hv
  rcases List.mem_append.mp hvn with hv1 | hv1
  · rw [mem_filter_ne] at hv1
    exact hd v hv.1 hv1.1
  · exact hv.2 (by simpa using hv1)

theorem ConfigsInv_add (s : DataInner) (g u a : ℕ) (h : ConfigsInv s) :
    ConfigsInv (add_coins s g u a).2 := h

theorem ConfigsInv_remove (s : DataInner) (g u a : ℕ) (h : ConfigsInv s) :
    ConfigsInv (remove_coins s g u a).2 := h

theorem ConfigsInv_role (s : DataInner) (g : ℕ) (r : Option ℕ)
    (h : ConfigsInv s) : ConfigsInv (set_giver_role s g r) := by
  intro p hp
  rcases mem_amodify hp with h1 | ⟨w, hw, rfl⟩ | rfl
  · exact h p h1
  · exact h (g, w) hw
  · exact BallotInv_default

theorem ConfigsInv_config (s : DataInner) (g : ℕ) (vc : VoteConfig)
    (h : ConfigsInv s) : ConfigsInv (set_vote_config s g vc) := by
  intro p hp
  rcases mem_amodify hp with h1 | ⟨w, hw, rfl⟩ | rfl
  · exact h p h1
  · exact h (g, w) hw
  · exact BallotInv_default

theorem BallotInv_fresh (i : ℕ) (now e : ℤ) :
    BallotInv ({ active := true, start_time := some now,
                 end_time := some e, initiator_id := some i,
                 yes_votes := [i], no_votes := [],
                 last_vote_time := none }) :=
  ⟨List.nodup_singleton i, List.nodup_nil, by simp⟩

theorem ConfigsInv_start (s : DataInner) (g i : ℕ) (now : ℤ)
    (h : ConfigsInv s) : ConfigsInv (start_vote s g i now).2 := by
  intro p hp
  cases hlookup : alookup s.guild_configs g with
  | some c =>
    simp only [start_vote, hlookup, Option.getD_some] at hp
    by_cases ha : c.vote_status.active = true
    · simp only [ha, if_true] at hp
      exact h p hp
    · rw [Bool.not_eq_true] at ha
      simp only [ha, Bool.false_eq_true, if_false] at hp
      cases hlast : c.vote_status.last_vote_time with
      | some t =>
        simp only [hlast] at hp
        by_cases hcool : now < t + 3600 * (c.vote_config.cooldown_hours : ℤ)
        · simp only [hcool, decide_eq_true_eq, if_true] at hp
          exact h p hp
        · simp only [hcool, decide_eq_true_eq, if_false] at hp
          rcases mem_aupdate hp with h1 | rfl
          · exact h p h1
          · exact BallotInv_fresh ..
      | none =>
        simp only [hlast, Bool.false_eq_true, if_false] at hp
        rcases mem_aupdate hp with h1 | rfl
        · exact h p h1
        · exact BallotInv_fresh ..
  | none =>
    simp only [start_vote, hlookup, Option.getD_none, GuildConfig.defaultFor,
      VoteStatus.default, Bool.false_eq_true, if_false] at hp
    rcases mem_aupdate hp with h1 | rfl
    · rcases mem_aupdate h1 with h2 | rfl
      · exact h p h2
      · exact BallotInv_default
    · exact BallotInv_fresh ..

theorem end_vote_configs (s : DataInner) (g : ℕ) (now : ℤ) :
    (end_vote s g now).2.guild_configs = s.guild_configs ∨
    ∃ c, alookup s.guild_configs g = some c ∧
      (end_vote s g now).2.guild_configs =
        aupdate s.guild_configs g (ended_config c now) := by
  simp only [end_vote]
  split
  · exact Or.inl rfl
  next c hc =>
    split
    · exact Or.inl rfl
    · repeat' split
      all_goals exact Or.inr ⟨c, hc, rfl⟩

theorem BallotInv_ended (c : GuildConfig) (now : ℤ)
    (h : BallotInv c.vote_status) :
    BallotInv (ended_config c now).vote_status := h

theorem ConfigsInv_end (s : DataInner) (g : ℕ) (now : ℤ)
    (h : ConfigsInv s) : ConfigsInv (end_vote s g now).2 := by
  intro p hp
  rcases end_vote_configs s g now with he | ⟨c, hc, he⟩
  · rw [he] at hp
    exact h p hp
  · rw [he] at hp
    rcases mem_aupdate hp with h1 | rfl
    · exact h p h1
    · exact BallotInv_ended c now (h (g, c) (alookup_mem hc))

theorem cast_vote_configs (s : DataInner) (g u : ℕ) (b : Bool) (now : ℤ) :
    (cast_vote s g u b now).2.guild_configs = s.guild_configs ∨
    (cast_vote s g u b now).2 = (end_vote s g now).2 ∨
    ∃ c, alookup s.guild_configs g = some c ∧
      (cast_vote s g u b now).2.guild_configs =
        aupdate s.guild_configs g { c with vote_status :=
          (if b then cast_yes_status c.vote_status u
           else cast_no_status c.vote_status u) } := by
  simp only [cast_vote]
  split
  · exact Or.inl rfl
  next c hc =>
    split
    · exact Or.inl rfl
    · split
      · split
        next er s2 heq => exact Or.inr (Or.inl (by rw [heq]))
        next v s2 heq => exact Or.inr (Or.inl (by rw [heq]))
      · exact Or.inr (Or.inr ⟨c, hc, rfl⟩)

theorem ConfigsInv_cast (s : DataInner) (g u : ℕ) (b : Bool) (now : ℤ)
    (h : ConfigsInv s) : ConfigsInv (cast_vote s g u b now).2 := by
  intro p hp
  rcases cast_vote_configs s g u b now with he | he | ⟨c, hc, he⟩
  · rw [he] at hp
    exact h p hp
  · rw [he] at hp
    exact ConfigsInv_end s g now h p hp
  · rw [he] at hp
    rcases mem_aupdate hp with h1 | rfl
    · exact h p h1
    · have hbase : BallotInv c.vote_status := h (g, c) (alookup_mem hc)
      by_cases hb : b = true
      · subst hb
        simpa using BallotInv_cast_yes c.vote_status u hbase
      · rw [Bool.not_eq_true] at hb
        subst hb
        simpa using BallotInv_cast_no c.vote_status u hbase

/-! ## Claim C6 -/

/-- C6: in every store state reachable through the modelled operations,
every configuration entry has duplicate-free vote lists with no user in
both (so each user holds at most one ballot); and cast_vote on an active,
non-expired vote removes the user from whichever list holds them and
appends them to the chosen list, leaving every other user's membership
unchanged — hence re-voting moves the id and re-voting the same choice is
a no-op in effect. -/
theorem C6_vote_sets_exclusive :
    (∀ s, Reach s → ∀ p ∈ s.guild_configs, BallotInv p.2.vote_status) ∧
    (∀ s g u now c (b : Bool), alookup s.guild_configs g = some c →
      c.vote_status.active = true →
      (∀ e, c.vote_status.end_time = some e → ¬ e < now) →
      ∃ c2, cast_vote s g u b now =
          (Except.ok (), { s with guild_configs :=
            (aupdate s.guild_configs g c2) }) ∧
        (u ∈ c2.vote_status.yes_votes ↔ b = true) ∧
        (u ∈ c2.vote_status.no_votes ↔ b = false) ∧
        (∀ v, v ≠ u →
          ((v ∈ c2.vote_status.yes_votes ↔ v ∈ c.vote_status.yes_votes) ∧
           (v ∈ c2.vote_status.no_votes ↔ v ∈ c.vote_status.no_votes)))) := by
  constructor
  · intro s hs
    induction hs with
    | init => intro p hp; simp [DataInner.new] at hp
    | add s g u a _ ih => exact ConfigsInv_add s g u a ih
    | remove s g u a _ ih => exact ConfigsInv_remove s g u a ih
    | role s g r _ ih => exact ConfigsInv_role s g r ih
    | config s g vc _ ih => exact ConfigsInv_config s g vc ih
    | start s g i now _ ih => exact ConfigsInv_start s g i now ih
    | cast s g u b now _ ih => exact ConfigsInv_cast s g u b now ih
    | finish s g now _ ih => exact ConfigsInv_end s g now ih
  · intro s g u now c b hlookup hactive hnexp
    refine ⟨{ c with vote_status :=
      (if b then cast_yes_status c.vote_status u
       else cast_no_status c.vote_status u) }, ?_, ?_, ?_, ?_⟩
    · simp only [cast_vote, hlookup, hactive, Bool.not_true,
        Bool.false_eq_true, if_false]
      cases hend : c.vote_status.end_time with
      | some e =>
        have hne : ¬ e < now := hnexp e hend
        simp [hne]
      | none => simp
    · by_cases hb : b = true
      · subst hb
        simp [cast_yes_status]
      · rw [Bool.not_eq_true] at hb
        subst hb
        simp [cast_no_status, mem_filter_ne]
    · by_cases hb : b = true
      · subst hb
        simp [cast_yes_status, mem_filter_ne]
      · rw [Bool.not_eq_true] at hb
        subst hb
        simp [cast_no_status]
    · intro v hv
      by_cases hb : b = true
      · subst hb
        constructor
        · simp [cast_yes_status, mem_filter_ne, hv]
        · simp [cast_yes_status, mem_filter_ne, hv]
      · rw [Bool.not_eq_true] at hb
        subst hb
        constructor
        · simp [cast_no_status, mem_filter_ne, hv]
        · simp [cast_no_status, mem_filter_ne, hv]

/-- C6 witness: the invariant read off a state reached by one start_vote
step, and the cast_vote behavior at a concrete active unexpired vote. -/
theorem C6_vote_sets_exclusive_witness :
    (∀ p ∈ (start_vote DataInner.new 1 7 0).2.guild_configs,
      BallotInv p.2.vote_status) ∧
    (∃ c2, cast_vote s6act 1 9 false 5 =
        (Except.ok (), { s6act with guild_configs :=
          (aupdate s6act.guild_configs 1 c2) }) ∧
      (9 ∈ c2.vote_status.yes_votes ↔ false = true) ∧
      (9 ∈ c2.vote_status.no_votes ↔ false = false) ∧
      (∀ v, v ≠ 9 →
        ((v ∈ c2.vote_status.yes_votes ↔
            v ∈ c6act.vote_status.yes_votes) ∧
         (v ∈ c2.vote_status.no_votes ↔
            v ∈ c6act.vote_status.no_votes)))) :=
  ⟨C6_vote_sets_exclusive.1 _ (Reach.start _ _ _ _ Reach.init),
   C6_vote_sets_exclusive.2 s6act 1 9 5 c6act false rfl rfl
     (by intro e he
         have he2 : (1800 : ℤ) = e := by simpa [c6act] using he
         subst he2
         decide)⟩

/-! ## Claim C2 -/

/-- C2 (amended): for a guild with an active vote, end_vote passes iff
total = yes + no is at least min_votes, total is nonzero, and the
binary64 computation (yes as f64 / total as f64) * 100.0 compares >= to
the majority percentage; when total < min_votes the outcome is fail.  The
f64 comparison agrees with the exact comparison 100 * yes >= majority *
total except at exact-threshold ratios for majority 29, 57 and 58, where
the rounded percentage falls just below the integer and the vote fails;
at total = 0 (reachable only with min_votes = 0) the division is NaN and
the vote fails rather than count as 0 percent. -/
theorem C2_end_vote_pass_iff (s : DataInner) (g : ℕ) (now : ℤ)
    (c : GuildConfig) (hlookup : alookup s.guild_configs g = some c)
    (hactive : c.vote_status.active = true) :
    (((end_vote s g now).1 = Except.ok true) ↔
      (c.vote_config.min_votes ≤
        c.vote_status.yes_votes.length + c.vote_status.no_votes.length ∧
       0 < c.vote_status.yes_votes.length + c.vote_status.no_votes.length ∧
       geNatF (mulF (divF (ofNatF c.vote_status.yes_votes.length)
           (ofNatF (c.vote_status.yes_votes.length +
             c.vote_status.no_votes.length))) (ofNatF 100))
         c.vote_config.majority_percentage = true)) ∧
    (c.vote_status.yes_votes.length + c.vote_status.no_votes.length <
        c.vote_config.min_votes →
      (end_vote s g now).1 = Except.ok false) := by
  by_cases hmin : c.vote_status.yes_votes.length +
      c.vote_status.no_votes.length < c.vote_config.min_votes
  · refine ⟨⟨fun h => ?_, fun h => ?_⟩, fun _ => ?_⟩
    · simp [end_vote, hlookup, hactive, hmin] at h
    · omega
    · simp [end_vote, hlookup, hactive, hmin]
  · by_cases htot : c.vote_status.yes_votes.length +
        c.vote_status.no_votes.length = 0
    · refine ⟨⟨fun h => ?_, fun h => ?_⟩, fun hlt => ?_⟩
      · simp [end_vote, hlookup, hactive, hmin, htot] at h
      · omega
      · omega
    · by_cases hpass : geNatF (mulF (divF
          (ofNatF c.vote_status.yes_votes.length)
          (ofNatF (c.vote_status.yes_votes.length +
            c.vote_status.no_votes.length))) (ofNatF 100))
          c.vote_config.majority_percentage = true
      · refine ⟨⟨fun _ => ⟨by omega, by omega, hpass⟩, fun _ => ?_⟩,
          fun hlt => ?_⟩
        · cases hbal : alookup s.guild_balances g with
          | some m => simp [end_vote, hlookup, hactive, hmin, htot, hpass,
              hbal]
          | none => simp [end_vote, hlookup, hactive, hmin, htot, hpass,
              hbal]
        · omega
      · rw [Bool.not_eq_true] at hpass
        refine ⟨⟨fun h => ?_, fun h => ?_⟩, fun hlt => ?_⟩
        · simp [end_vote, hlookup, hactive, hmin, htot, hpass] at h
        · rw [hpass] at h
          simp at h
        · omega

set_option maxRecDepth 10000 in
/-- C2 counterexample: 29 yes of 100 total ballots is exactly 29 percent,
min_votes = 10 <= 100, and the claim (>= at the threshold on
100 * yes / total) demands a pass; the f64 computation (29/100) * 100.0
rounds to 28.999999999999996, strictly below 29.0, and the code returns
fail. -/
theorem C2_counterexample :
    c2cfg.vote_status.yes_votes.length = 29 ∧
    c2cfg.vote_status.no_votes.length = 71 ∧
    c2cfg.vote_config.min_votes ≤ 29 + 71 ∧
    c2cfg.vote_config.majority_percentage * (29 + 71) ≤ 100 * 29 ∧
    (end_vote s2vote 1 0).1 = Except.ok false := by
  refine ⟨by decide, by decide, by decide, by decide, rfl⟩

/-- C2 witness: the amended theorem applied at the concrete tally. -/
theorem C2_end_vote_pass_iff_witness :
    (((end_vote s2vote 1 0).1 = Except.ok true) ↔
      (c2cfg.vote_config.min_votes ≤
        c2cfg.vote_status.yes_votes.length +
          c2cfg.vote_status.no_votes.length ∧
       0 < c2cfg.vote_status.yes_votes.length +
          c2cfg.vote_status.no_votes.length ∧
       geNatF (mulF (divF (ofNatF c2cfg.vote_status.yes_votes.length)
           (ofNatF (c2cfg.vote_status.yes_votes.length +
             c2cfg.vote_status.no_votes.length))) (ofNatF 100))
         c2cfg.vote_config.majority_percentage = true)) ∧
    (c2cfg.vote_status.yes_votes.length +
        c2cfg.vote_status.no_votes.length <
        c2cfg.vote_config.min_votes →
      (end_vote s2vote 1 0).1 = Except.ok false) :=
  C2_end_vote_pass_iff s2vote 1 0 c2cfg rfl rfl

/-! ## Claim C3 -/

/-- C3 (amended): start_vote fails with VoteAlreadyActive whenever the
active flag is set — including in the Expired-Active state now > end_time,
which the source does not special-case — fails with CooldownInEffect when
no vote is active, last_vote_time = some t, and now < t + cooldown, and
otherwise transitions to Active, setting start_time = now,
end_time = now + duration_minutes, initiator_id = initiator,
yes_votes = [initiator], no_votes = [], and returning end_time. -/
theorem C3_start_vote_spec (s : DataInner) (g initiator : ℕ) (now : ℤ)
    (c : GuildConfig) (hlookup : alookup s.guild_configs g = some c) :
    (c.vote_status.active = true →
      start_vote s g initiator now =
        (Except.error VoteError.voteAlreadyActive, s)) ∧
    (c.vote_status.active = false →
      ∀ t, c.vote_status.last_vote_time = some t →
        now < t + 3600 * (c.vote_config.cooldown_hours : ℤ) →
        start_vote s g initiator now =
          (Except.error VoteError.cooldownInEffect, s)) ∧
    (c.vote_status.active = false →
      (∀ t, c.vote_status.last_vote_time = some t →
        ¬ now < t + 3600 * (c.vote_config.cooldown_hours : ℤ)) →
      start_vote s g initiator now =
        (Except.ok (now + 60 * (c.vote_config.duration_minutes : ℤ)),
         { s with guild_configs := (aupdate s.guild_configs g
             { c with vote_status :=
               { active := true, start_time := some now,
                 end_time :=
                   some (now + 60 * (c.vote_config.duration_minutes : ℤ)),
                 initiator_id := some initiator, yes_votes := [initiator],
                 no_votes := [], last_vote_time := none } }) })) := by
  refine ⟨?_, ?_, ?_⟩
  · intro ha
    simp [start_vote, hlookup, ha]
  · intro ha t ht hcool
    simp [start_vote, hlookup, ha, ht, hcool]
  · intro ha hnc
    cases hlast : c.vote_status.last_vote_time with
    | none => simp [start_vote, hlookup, ha, hlast]
    | some t => simp [start_vote, hlookup, ha, hlast, hnc t hlast]

/-- C3 counterexample: at time 1 the guild 1 vote has active = true but
now > end_time, so per the claim the state is neither Active
(active and now <= end_time fails) nor Cooldown (active is not false), and
the claim demands the Idle-to-Active transition; the code instead fails
with VoteAlreadyActive. -/
theorem C3_counterexample :
    alookup s3exp.guild_configs 1 = some c3exp ∧
    c3exp.vote_status.active = true ∧
    c3exp.vote_status.end_time = some 0 ∧
    ¬ ((1 : ℤ) ≤ 0) ∧
    (start_vote s3exp 1 9 1).1 = Except.error VoteError.voteAlreadyActive := by
  refine ⟨rfl, rfl, rfl, by norm_num, rfl⟩

/-- C3 witness: the amended theorem applied at a concrete input. -/
theorem C3_start_vote_spec_witness :
    start_vote s3exp 1 9 1 = (Except.error VoteError.voteAlreadyActive, s3exp)
    := (C3_start_vote_spec s3exp 1 9 1 c3exp rfl).1 rfl

/-! ## Snapshot round-trip lemmas (claim C7 support) -/

theorem alookup_append {β : Type} (l1 l2 : List (ℕ × β)) (k : ℕ) :
    alookup (l1 ++ l2) k =
      match alookup l1 k with
      | some v => some v
      | none => alookup l2 k := by
  induction l1 with
  | nil => simp [alookup]
  | cons hd tl ih =>
    obtain ⟨k1, v1⟩ := hd
    by_cases h : k1 = k
    · subst h
      simp [List.cons_append, alookup_cons_self]
    · rw [List.cons_append, alookup_cons_other h, alookup_cons_other h, ih]

theorem export_configs_keys (l : List (ℕ × GuildConfig)) :
    (export_configs l).map GuildConfig.guild_id = l.map Prod.fst := by
  induction l with
  | nil => rfl
  | cons hd tl ih =>
    obtain ⟨g, c⟩ := hd
    simp [export_configs, ih]

theorem export_configs_pairup (rs : List GuildConfig) :
    export_configs (rs.map (fun r => (r.guild_id, r))) = rs := by
  induction rs with
  | nil => rfl
  | cons r rs ih =>
    simp only [List.map_cons, export_configs, ih]

theorem import_configs_eq (rs : List GuildConfig)
    (acc : List (ℕ × GuildConfig))
    (hn : (rs.map GuildConfig.guild_id).Nodup)
    (hf : ∀ r ∈ rs, alookup acc r.guild_id = none) :
    rs.foldl (fun m c => aupdate m c.guild_id c) acc =
      acc ++ rs.map (fun r => (r.guild_id, r)) := by
  induction rs generalizing acc with
  | nil => simp
  | cons r rs ih =>
    rw [List.map_cons, List.nodup_cons] at hn
    obtain ⟨hne, hn2⟩ := hn
    rw [List.foldl_cons, aupdate_absent r (hf r (List.mem_cons_self ..)),
      ih _ hn2 ?_]
    · rw [List.map_cons, List.append_assoc]
      rfl
    · intro r2 hr2
      rw [alookup_append, hf r2 (List.mem_cons_of_mem _ hr2)]
      have hne2 : r.guild_id ≠ r2.guild_id :=
        fun he => hne (he ▸ List.mem_map_of_mem _ hr2)
      simp [alookup, hne2]

theorem export_balances_guild_mem {bs : List (ℕ × List (ℕ × ℕ))}
    {r : UserBalance} (h : r ∈ export_balances bs) :
    r.guild_id ∈ bs.map Prod.fst := by
  induction bs with
  | nil => simp [export_balances] at h
  | cons hd tl ih =>
    obtain ⟨g, m⟩ := hd
    rw [export_balances] at h
    rcases List.mem_append.mp h with h1 | h1
    · obtain ⟨ub, hub, rfl⟩ := List.mem_map.mp h1
      simp
    · simp [ih h1]

theorem export_keys_nodup (bs : List (ℕ × List (ℕ × ℕ))) (h : WFbal bs) :
    ((export_balances bs).map
      (fun r => (r.guild_id, r.user_id))).Nodup := by
  induction bs with
  | nil => simp [export_balances]
  | cons hd tl ih =>
    obtain ⟨g, m⟩ := hd
    obtain ⟨houter, hinner⟩ := h
    rw [List.map_cons, List.nodup_cons] at houter
    have ih2 := ih ⟨houter.2,
      fun p hp => hinner p (List.mem_cons_of_mem _ hp)⟩
    rw [export_balances, List.map_append, List.nodup_append]
    refine ⟨?_, ih2, ?_⟩
    · rw [List.map_map]
      have hm : (m.map Prod.fst).Nodup := hinner (g, m) (List.mem_cons_self ..)
      have hcomp : (m.map
          ((fun r : UserBalance => (r.guild_id, r.user_id)) ∘
            (fun ub => ⟨g, ub.1, ub.2⟩))) =
          (m.map Prod.fst).map (fun u => (g, u)) := by
        rw [List.map_map]
        rfl
      rw [hcomp]
      exact hm.map (fun a b hab => by simpa using hab)
    · intro x hx hx2
      rw [List.map_map] at hx
      obtain ⟨ub, hub, rfl⟩ := List.mem_map.mp hx
      obtain ⟨r2, hr2, hkey⟩ := List.mem_map.mp hx2
      have hgmem : r2.guild_id ∈ tl.map Prod.fst :=
        export_balances_guild_mem hr2
      have hgg : r2.guild_id = g := congrArg Prod.fst hkey
      exact houter.1 (hgg ▸ hgmem)

theorem balHas_import (acc : List (ℕ × List (ℕ × ℕ))) (r : UserBalance)
    (g2 u2 : ℕ) :
    balHas (import_balance acc r) g2 u2 ↔
      (g2 = r.guild_id ∧ u2 = r.user_id) ∨ balHas acc g2 u2 := by
  by_cases hg : g2 = r.guild_id
  · subst hg
    by_cases hu : u2 = r.user_id
    · subst hu
      simp [balHas, import_balance, alookup_aupdate_self]
    · have hu2 : r.user_id ≠ u2 := fun he => hu he.symm
      cases hacc : alookup acc r.guild_id with
      | none =>
        simp [balHas, import_balance, alookup_aupdate_self, hacc,
          alookup_aupdate_other _ _ hu2, alookup, hu, hu2]
      | some m =>
        simp [balHas, import_balance, alookup_aupdate_self, hacc,
          alookup_aupdate_other _ _ hu2, hu, hu2]
  · have hg2 : r.guild_id ≠ g2 := fun he => hg he.symm
    simp [balHas, import_balance, alookup_aupdate_other _ _ hg2, hg]

theorem import_balance_perm (acc : List (ℕ × List (ℕ × ℕ)))
    (r : UserBalance) (hfresh : ¬ balHas acc r.guild_id r.user_id) :
    (export_balances (import_balance acc r)).Perm
      (r :: export_balances acc) := by
  induction acc with
  | nil =>
    simp [import_balance, alookup, aupdate, export_balances]
  | cons hd tl ih =>
    obtain ⟨g1, m1⟩ := hd
    by_cases hg : g1 = r.guild_id
    · subst hg
      have hnone : alookup m1 r.user_id = none := by
        cases halo : alookup m1 r.user_id with
        | none => rfl
        | some b =>
          exact absurd ⟨m1, alookup_cons_self .., by rw [halo]; rfl⟩ hfresh
      have h1 : import_balance ((r.guild_id, m1) :: tl) r =
          (r.guild_id, m1 ++ [(r.user_id, r.balance)]) :: tl := by
        simp only [import_balance, alookup_cons_self, Option.getD_some]
        rw [aupdate_absent _ hnone, aupdate_cons_self]
      rw [h1, export_balances, export_balances, List.map_append,
        List.append_assoc]
      exact List.perm_middle
    · have h1 : import_balance ((g1, m1) :: tl) r =
          (g1, m1) :: import_balance tl r := by
        simp only [import_balance, alookup_cons_other hg]
        rw [aupdate_cons_other hg]
      have hfresh2 : ¬ balHas tl r.guild_id r.user_id := by
        rintro ⟨m, hm, hs⟩
        exact hfresh ⟨m, by rw [alookup_cons_other hg]; exact hm, hs⟩
      rw [h1, export_balances, export_balances]
      exact ((ih hfresh2).append_left _).trans List.perm_middle

theorem import_fold_perm (rs : List UserBalance)
    (acc : List (ℕ × List (ℕ × ℕ)))
    (hn : (rs.map (fun r => (r.guild_id, r.user_id))).Nodup)
    (hf : ∀ r ∈ rs, ¬ balHas acc r.guild_id r.user_id) :
    (export_balances (rs.foldl import_balance acc)).Perm
      (export_balances acc ++ rs) := by
  induction rs generalizing acc with
  | nil => simp
  | cons r rs ih =>
    rw [List.map_cons, List.nodup_cons] at hn
    obtain ⟨hkey, hn2⟩ := hn
    rw [List.foldl_cons]
    have hstep := import_balance_perm acc r (hf r (List.mem_cons_self ..))
    have hf2 : ∀ r2 ∈ rs,
        ¬ balHas (import_balance acc r) r2.guild_id r2.user_id := by
      intro r2 hr2 hcon
      rcases (balHas_import acc r r2.guild_id r2.user_id).mp hcon with
        ⟨he1, he2⟩ | hcon2
      · apply hkey
        have hmem : (r2.guild_id, r2.user_id) ∈
            rs.map (fun r3 => (r3.guild_id, r3.user_id)) :=
          List.mem_map_of_mem _ hr2
        rwa [he1, he2] at hmem
      · exact hf r2 (List.mem_cons_of_mem _ hr2) hcon2
    exact ((ih _ hn2 hf2).trans (hstep.append_right _)).trans
      List.perm_middle.symm

/-! ## Claim C7 -/

/-- C7: exporting a well-formed store, importing the records into a fresh
empty store and exporting again yields the same multiset of balance
records and the same multiset of config records as the first export. -/
theorem C7_roundtrip (s : DataInner) (hb : WFbal s.guild_balances)
    (hc : WFcfg s.guild_configs) :
    Multiset.ofList (export_data (import_data DataInner.new
        (export_data s).1 (export_data s).2)).1 =
      Multiset.ofList (export_data s).1 ∧
    Multiset.ofList (export_data (import_data DataInner.new
        (export_data s).1 (export_data s).2)).2 =
      Multiset.ofList (export_data s).2 := by
  constructor
  · apply Multiset.coe_eq_coe.mpr
    have h := import_fold_perm (export_balances s.guild_balances) []
      (export_keys_nodup _ hb)
      (fun r hr => by rintro ⟨m, hm, _⟩; simp [alookup] at hm)
    simpa [export_data, import_data, DataInner.new,
      export_balances] using h
  · apply Multiset.coe_eq_coe.mpr
    have h := import_configs_eq (export_configs s.guild_configs) []
      (by rw [export_configs_keys]; exact hc) (fun r hr => rfl)
    have h2 : (export_data (import_data DataInner.new
        (export_data s).1 (export_data s).2)).2 =
        export_configs s.guild_configs := by
      simp only [export_data, import_data, DataInner.new]
      rw [h, List.nil_append, export_configs_pairup]
    rw [h2]
    exact List.Perm.refl _

/-- C7 witness: the theorem applied to the concrete store. -/
theorem C7_roundtrip_witness :
    Multiset.ofList (export_data (import_data DataInner.new
        (export_data s7).1 (export_data s7).2)).1 =
      Multiset.ofList (export_data s7).1 ∧
    Multiset.ofList (export_data (import_data DataInner.new
        (export_data s7).1 (export_data s7).2)).2 =
      Multiset.ofList (export_data s7).2 :=
  C7_roundtrip s7 ⟨by decide, by decide⟩
    (by show (s7.guild_configs.map Prod.fst).Nodup; decide)

/-- C10 witness: the theorem applied at a concrete input. -/
theorem C10_missing_config_witness :
    cast_vote DataInner.new 1 2 true 0 =
      (Except.error VoteError.noActiveVote, DataInner.new) ∧
    end_vote DataInner.new 1 0 =
      (Except.error VoteError.noActiveVote, DataInner.new) :=
  ⟨(C10_missing_config DataInner.new 1 2 3 true 0 (by decide)).1,
   (C10_missing_config DataInner.new 1 2 3 true 0 (by decide)).2.1⟩

end AndyCoin
